import Mathlib

/-!
Verification development for the DeepSea drive-group disk selector
(srv/modules/runners/disks.py).

The Python module is embedded shallowly:

* Python exceptions are modelled with an explicit error type `Err` and
  computations in `Except Err`.
* Python floats are modelled as exact rationals; all numeric values that
  reach a comparison here are decimal literals, for which the modelled
  arithmetic agrees with the source's intent.
* The regular-expression scans of the source are modelled as character-list
  scanners that follow the leftmost-match semantics of `re.match` and
  `re.findall` on the concrete patterns used by the source.
* A disk inventory entry is modelled with exactly the fields the module
  reads; the reduced dict built by `DriveGroup._reduce_inventory` is the
  structure `ReducedDisk` whose field names are the dict keys it builds.
-/

namespace Disks

/-- Errors raised by the Python module.  Each constructor corresponds to a
concrete `raise` site or runtime exception of `disks.py`. -/
inductive Err where
  /-- FilterNotSupported("Filter {} is not supported") in DriveGroup._check_filter. -/
  | filterNotSupported (name : String)
  /-- NoMatcherFound in DriveGroup._assign_matchers. -/
  | noMatcherFound (name value : String)
  /-- Exception("Unit {} not supported") in SizeMatcher._normalize_suffix. -/
  | unitNotSupported (unit : String)
  /-- Exception("No disk_key found for {} or {}") in Matcher._get_disk_key. -/
  | missingAttr (key : String) (fallback_key : Option String)
  /-- AttributeError from calling .get on the None returned by _reduce_inventory. -/
  | attributeError
  /-- KeyError from disk["available"] in _reduce_inventory. -/
  | keyError (key : String)
  /-- TypeError from int(None), re.findall(..., None) or a comparison with None. -/
  | typeError
  /-- IndexError from re.findall(...)[0] on an empty match list. -/
  | indexError
  /-- ValueError from int(...) or float(...) on a non-numeric string. -/
  | valueError (s : String)
  /-- Exception("Disk {} doesn't have a 'path' identifier") in _filter_devices. -/
  | missingPath
  /-- Exception("Couldn't parse {}") in SizeMatcher._parse_filter. -/
  | sizeExpression (s : String)
  /-- Exception("No filters applied") in SizeMatcher.compare. -/
  | noFiltersApplied
deriving DecidableEq

/-- Character class [0-9], i.e. the ASCII meaning of \d in the source regexes. -/
def isDigitC (c : Char) : Bool := 48 ≤ c.toNat && c.toNat ≤ 57

/-- Character class [A-Z] of the source regexes. -/
def isUpperC (c : Char) : Bool := 65 ≤ c.toNat && c.toNat ≤ 90

/-- Character class [a-zA-Z] of the source regexes. -/
def isAlphaC (c : Char) : Bool :=
  (97 ≤ c.toNat && c.toNat ≤ 122) || (65 ≤ c.toNat && c.toNat ≤ 90)

/-- Split a character list into its maximal leading digit run and the rest
(the action of a greedy \d+ anchored at the current position). -/
def takeDigits : List Char → List Char × List Char
  | [] => ([], [])
  | c :: cs =>
    if isDigitC c then
      let p := takeDigits cs
      (c :: p.1, p.2)
    else ([], c :: cs)

/-- Maximal leading run of [a-zA-Z] characters. -/
def takeLetters : List Char → List Char × List Char
  | [] => ([], [])
  | c :: cs =>
    if isAlphaC c then
      let p := takeLetters cs
      (c :: p.1, p.2)
    else ([], c :: cs)

/-- First maximal digit run of a string: re.findall(r"\d+", s) taken at
index 0, `none` when the list of matches is empty. -/
def firstDigitRun : List Char → Option (List Char)
  | [] => none
  | c :: cs =>
    if isDigitC c then some (takeDigits (c :: cs)).1
    else firstDigitRun cs

/-- First maximal letter run of a string: re.findall(r"[a-zA-Z]+", s) taken
at index 0. -/
def firstLetterRun : List Char → Option (List Char)
  | [] => none
  | c :: cs =>
    if isAlphaC c then some (takeLetters (c :: cs)).1
    else firstLetterRun cs

/-- Leftmost match of re.findall(r"\d+\.\d+", s), returned as the integer
part and the fractional part.  On failure at one start position the scan
advances by a single character, as the regex engine does. -/
def findFrac : List Char → Option (List Char × List Char)
  | [] => none
  | c :: rest =>
    if isDigitC c then
      match takeDigits (c :: rest) with
      | (ds, '.' :: r2) =>
        match takeDigits r2 with
        | (f :: fs, _) => some (ds, f :: fs)
        | ([], _) => findFrac rest
      | _ => findFrac rest
    else findFrac rest

/-- Python's substring containment test a in b (prefix helper). -/
def listPrefix : List Char → List Char → Bool
  | [], _ => true
  | _ :: _, [] => false
  | a :: as, b :: bs => a == b && listPrefix as bs

/-- Python's needle in hay substring test on strings. -/
def isSubstring (needle : List Char) : List Char → Bool
  | [] => needle.isEmpty
  | c :: rest => listPrefix needle (c :: rest) || isSubstring needle rest

/-- Numeric value of a digit run. -/
def natDigits (l : List Char) : Nat :=
  l.foldl (fun n c => 10 * n + (c.toNat - 48)) 0

/-- Python int(s) restricted to the optional-sign digit strings
that occur in this module; other strings raise ValueError (`none`). -/
def pyInt (s : String) : Option Int :=
  match s.data with
  | '-' :: ds => if ds ≠ [] ∧ ds.all isDigitC then some (-(natDigits ds : Int)) else none
  | '+' :: ds => if ds ≠ [] ∧ ds.all isDigitC then some (natDigits ds : Int) else none
  | ds => if ds ≠ [] ∧ ds.all isDigitC then some (natDigits ds : Int) else none

/-- Python float(s) on the <digits> or <digits>.<digits> strings produced
by the module's regexes, as an exact rational; `none` is ValueError. -/
def pyFloat (s : String) : Option ℚ :=
  match takeDigits s.data with
  | ([], _) => none
  | (d, []) => some (natDigits d : ℚ)
  | (d, '.' :: r2) =>
    match takeDigits r2 with
    | (f, []) => some ((natDigits d : ℚ) + (natDigits f : ℚ) / 10 ^ f.length)
    | _ => none
  | _ => none

/-- Python str() applied to a value that is either a string or None. -/
def pyStr : Option String → String
  | some s => s
  | none => "None"

/-- Truthiness of an optional string value: None and the empty string are
falsy, every other string is truthy. -/
def truthy : Option String → Bool
  | some s => s ≠ ""
  | none => false

/-- SizeMatcher.supported_suffixes. -/
def supported_suffixes : List String := ["MB", "GB", "TB", "M", "G", "T"]

/-- SizeMatcher._normalize_suffix. -/
def normalize_suffix (suffix : String) : Except Err String :=
  if !(supported_suffixes.contains suffix) then .error (.unitNotSupported suffix)
  else if suffix = "G" then .ok "GB"
  else if suffix = "T" then .ok "TB"
  else if suffix = "M" then .ok "MB"
  else .ok suffix

/-- SizeMatcher._parse_suffix: normalize the first letter run of the string
(IndexError when there is none). -/
def parse_suffix (l : List Char) : Except Err String :=
  match firstLetterRun l with
  | none => .error .indexError
  | some ls => normalize_suffix (String.mk ls)

/-- SizeMatcher._get_k_v: first digit run paired with the normalized first
letter run. -/
def get_k_v (data : List Char) : Except Err (String × String) :=
  match firstDigitRun data with
  | none => .error .indexError
  | some ds =>
    match parse_suffix data with
    | .error e => .error e
    | .ok suf => .ok (String.mk ds, suf)

/-- State of the low/high/exact fields of a SizeMatcher.  A field `none`
stands for the pair (None, None); `some (v, u)` for a value digit-string
with its normalized unit. -/
structure SizeBounds where
  low : Option (String × String)
  high : Option (String × String)
  exact : Option (String × String)
deriving DecidableEq

/-- Match of re.match(r"\d+[A-Z]:\d+[A-Z]", s): a non-anchored prefix
match returning the two halves of the matched group. -/
def matchLowHigh (s : List Char) : Option (List Char × List Char) :=
  match takeDigits s with
  | ([], _) => none
  | (d1, r1) =>
    match r1 with
    | c1 :: ':' :: r3 =>
      if isUpperC c1 then
        match takeDigits r3 with
        | ([], _) => none
        | (d2, r4) =>
          match r4 with
          | c2 :: _ => if isUpperC c2 then some (d1 ++ [c1], d2 ++ [c2]) else none
          | [] => none
      else none
    | _ => none

/-- Match of re.match(r"\d+[A-Z]:$", s), returning the matched group. -/
def matchLow (s : List Char) : Option (List Char) :=
  match takeDigits s with
  | ([], _) => none
  | (d1, r1) =>
    match r1 with
    | [c1, ':'] => if isUpperC c1 then some (d1 ++ [c1, ':']) else none
    | _ => none

/-- Match of re.match(r"^:\d+[A-Z]", s): prefix match, returning the group. -/
def matchHigh (s : List Char) : Option (List Char) :=
  match s with
  | ':' :: r1 =>
    match takeDigits r1 with
    | ([], _) => none
    | (d1, r2) =>
      match r2 with
      | c1 :: _ => if isUpperC c1 then some (':' :: d1 ++ [c1]) else none
      | [] => none
  | _ => none

/-- Match of re.match(r"^\d+[A-Z]$", s), returning the group. -/
def matchExact (s : List Char) : Option (List Char) :=
  match takeDigits s with
  | ([], _) => none
  | (d1, r1) =>
    match r1 with
    | [c1] => if isUpperC c1 then some (d1 ++ [c1]) else none
    | _ => none

/-- Python's `not t` applied to the 2-tuple returned by the low/high/exact
properties of SizeMatcher: a 2-tuple is always truthy (even (None, None)),
so the result is always False. -/
def pyNotTuple (_t : Option (String × String)) : Bool := false

/-- Step of SizeMatcher._parse_filter for the low_high regex: on a match,
split the group on the colon and store both halves via _get_k_v. -/
def parse_step_low_high (s : List Char) (b : SizeBounds) : Except Err SizeBounds :=
  match matchLowHigh s with
  | none => .ok b
  | some (lo, hi) =>
    match get_k_v lo with
    | .error e => .error e
    | .ok l =>
      match get_k_v hi with
      | .error e => .error e
      | .ok h => .ok { b with low := some l, high := some h }

/-- Step of SizeMatcher._parse_filter for the low regex. -/
def parse_step_low (s : List Char) (b : SizeBounds) : Except Err SizeBounds :=
  match matchLow s with
  | none => .ok b
  | some g =>
    match get_k_v g with
    | .error e => .error e
    | .ok l => .ok { b with low := some l }

/-- Step of SizeMatcher._parse_filter for the high regex. -/
def parse_step_high (s : List Char) (b : SizeBounds) : Except Err SizeBounds :=
  match matchHigh s with
  | none => .ok b
  | some g =>
    match get_k_v g with
    | .error e => .error e
    | .ok h => .ok { b with high := some h }

/-- Step of SizeMatcher._parse_filter for the exact regex. -/
def parse_step_exact (s : List Char) (b : SizeBounds) : Except Err SizeBounds :=
  match matchExact s with
  | none => .ok b
  | some g =>
    match get_k_v g with
    | .error e => .error e
    | .ok x => .ok { b with exact := some x }

/-- SizeMatcher._parse_filter: the four regexes are applied in source order,
each successful one overwriting the corresponding fields via _get_k_v.
The final "Couldn't parse" check tests the truthiness of the property
tuples, which never fails (see pyNotTuple), so it is dead code. -/
def parse_filter (attr : String) : Except Err SizeBounds :=
  match parse_step_low_high attr.data ⟨none, none, none⟩ with
  | .error e => .error e
  | .ok b1 =>
    match parse_step_low attr.data b1 with
    | .error e => .error e
    | .ok b2 =>
      match parse_step_high attr.data b2 with
      | .error e => .error e
      | .ok b3 =>
        match parse_step_exact attr.data b3 with
        | .error e => .error e
        | .ok b4 =>
          if pyNotTuple b4.low && pyNotTuple b4.high && pyNotTuple b4.exact then
            .error (.sizeExpression attr)
          else .ok b4

/-- SizeMatcher.to_byte on a (value, suffix) pair whose value is already a
rational; returns None (modelled as `none`) for an unrecognized suffix,
exactly like the Python fall-through. -/
def to_byte (value : ℚ) (suffix : String) : Option ℚ :=
  if suffix = "MB" then some (value * 1000000)
  else if suffix = "GB" then some (value * 1000000000)
  else if suffix = "TB" then some (value * 1000000000000)
  else none

/-- SizeMatcher.to_byte on a stored property tuple: float() of the stored
value string (TypeError on None, ValueError on junk), then the unit cases. -/
def to_byte_tuple : Option (String × String) → Except Err (Option ℚ)
  | none => .error .typeError
  | some (v, suffix) =>
    match pyFloat v with
    | none => .error (.valueError v)
    | some q => .ok (to_byte q suffix)

/-- Python's all() over a low/high/exact property tuple: true iff both the
value and the suffix are truthy strings. -/
def tupAll : Option (String × String) → Bool
  | some (v, s) => v ≠ "" && s ≠ ""
  | none => false

/-- Comparison x <= y where either operand may be None (TypeError). -/
def py_le (x y : Option ℚ) : Except Err Bool :=
  match x, y with
  | some a, some b => .ok (decide (a ≤ b))
  | _, _ => .error .typeError

/-- Comparison x >= y where either operand may be None (TypeError). -/
def py_ge (x y : Option ℚ) : Except Err Bool :=
  match x, y with
  | some a, some b => .ok (decide (b ≤ a))
  | _, _ => .error .typeError

/-- Comparison x == y on possibly-None floats (None == None is False-free
here: both operands are Some in every reachable call). -/
def py_eq (x y : Option ℚ) : Except Err Bool :=
  match x, y with
  | some a, some b => .ok (decide (a = b))
  | _, _ => .ok false

/-- Branch structure of SizeMatcher.compare after the disk's size has been
converted to bytes: bounded, low-only, high-only, exact, else raise
"No filters applied".  A branch whose test fails returns the implicit None
of the source, modelled as `.ok false` (both are falsy at the call site). -/
def size_branches (b : SizeBounds) (disk_bytes : Option ℚ) : Except Err Bool :=
  if tupAll b.high && tupAll b.low then
    match to_byte_tuple b.high with
    | .error e => .error e
    | .ok hb =>
      match py_le disk_bytes hb with
      | .error e => .error e
      | .ok hok =>
        if hok then
          match to_byte_tuple b.low with
          | .error e => .error e
          | .ok lb =>
            match py_ge disk_bytes lb with
            | .error e => .error e
            | .ok lok => .ok lok
        else .ok false
  else if tupAll b.low && !tupAll b.high then
    match to_byte_tuple b.low with
    | .error e => .error e
    | .ok lb => py_ge disk_bytes lb
  else if tupAll b.high && !tupAll b.low then
    match to_byte_tuple b.high with
    | .error e => .error e
    | .ok hb => py_le disk_bytes hb
  else if tupAll b.exact then
    match to_byte_tuple b.exact with
    | .error e => .error e
    | .ok xb => py_eq disk_bytes xb
  else .error .noFiltersApplied

/-- SizeMatcher.compare applied to the already-extracted disk key: parse the
leading decimal number (TypeError on the None sentinel, IndexError when no
<digits>.<digits> substring exists), normalize the device's unit suffix,
convert to bytes and dispatch on the configured range shape. -/
def size_compare (b : SizeBounds) (disk_key : Option String) : Except Err Bool :=
  match disk_key with
  | none => .error .typeError
  | some s =>
    match findFrac s.data with
    | none => .error .indexError
    | some (d, f) =>
      match parse_suffix s.data with
      | .error e => .error e
      | .ok dsuf =>
        size_branches b
          (to_byte ((natDigits d : ℚ) + (natDigits f : ℚ) / 10 ^ f.length) dsuf)

/-- The reduced disk dict built by DriveGroup._reduce_inventory; field names
are the dict keys.  The path value is disk.get("path"), hence optional;
the other values default to the empty string. -/
structure ReducedDisk where
  path : Option String
  size : String
  vendor : String
  bare_size : String
  model : String
deriving DecidableEq

/-- Dictionary lookup reduced.get(key) on a reduced disk. -/
def reduced_get (r : ReducedDisk) (key : String) : Option String :=
  if key = "path" then r.path
  else if key = "size" then some r.size
  else if key = "vendor" then some r.vendor
  else if key = "bare_size" then some r.bare_size
  else if key = "model" then some r.model
  else none

/-- Matcher._get_disk_key on a reduced disk (or on the None returned by
_reduce_inventory, in which case .get raises AttributeError).  Primary key,
optional fallback key, then: truthy value returned; virtual environment
returns the implicit None; otherwise the "No disk_key found" exception. -/
def get_disk_key (virtual : Bool) (key : String) (fallback_key : Option String)
    (disk : Option ReducedDisk) : Except Err (Option String) :=
  match disk with
  | none => .error .attributeError
  | some r =>
    let dk0 := reduced_get r key
    let dk := match truthy dk0, fallback_key with
      | false, some fb => reduced_get r fb
      | _, _ => dk0
    if truthy dk then .ok dk
    else if virtual then .ok none
    else .error (.missingAttr key fallback_key)

/-- The matcher subclasses as a tagged variant: SubstringMatcher,
EqualityMatcher and SizeMatcher with their constructor arguments.  The
SizeMatcher stores its parsed bounds; its keys are fixed to
"human_readable_size" with fallback "size" by its __init__. -/
inductive Matcher where
  | substring (attr : String) (key : String)
  | equality (attr : String) (key : String)
  | size (attr : String) (bounds : SizeBounds)
deriving DecidableEq

/-- The compare method of the matcher subclasses, dispatched on the tag.
SubstringMatcher: str(attr) in str(disk_key) (note str(None) = "None").
EqualityMatcher: int(disk_key) == int(attr).
SizeMatcher: size_compare on the extracted key. -/
def matcher_compare (virtual : Bool) (m : Matcher) (disk : Option ReducedDisk) :
    Except Err Bool :=
  match m with
  | .substring attr key =>
    match get_disk_key virtual key none disk with
    | .error e => .error e
    | .ok dk => .ok (isSubstring attr.data (pyStr dk).data)
  | .equality attr key =>
    match get_disk_key virtual key none disk with
    | .error e => .error e
    | .ok dk =>
      match dk with
      | none => .error .typeError
      | some s =>
        match pyInt s with
        | none => .error (.valueError s)
        | some n =>
          match pyInt attr with
          | none => .error (.valueError attr)
          | some an => .ok (decide (n = an))
  | .size _ b =>
    match get_disk_key virtual "human_readable_size" (some "size") disk with
    | .error e => .error e
    | .ok dk => size_compare b dk

/-- DriveGroup._supported_filters. -/
def supported_filters : List String := ["size", "vendor", "model", "rotates"]

/-- DriveGroup._check_filter: iterate over the filter keys in order and
raise FilterNotSupported on the first unsupported one. -/
def check_filter : List (String × String) → Except Err Unit
  | [] => .ok ()
  | (n, _) :: rest =>
    if supported_filters.contains n then check_filter rest
    else .error (.filterNotSupported n)

/-- DriveGroup._assign_matchers: dispatch of filter names to matcher
subclasses; constructing a SizeMatcher parses the filter value. -/
def assign_matchers (filter_name filter_value : String) : Except Err Matcher :=
  if filter_name = "size" then
    match parse_filter filter_value with
    | .error e => .error e
    | .ok b => .ok (.size filter_value b)
  else if filter_name = "model" then .ok (.substring filter_value "model")
  else if filter_name = "vendor" then .ok (.substring filter_value "vendor")
  else if filter_name = "rotates" then .ok (.equality filter_value "rotates")
  else .error (.noMatcherFound filter_name filter_value)

/-- An entry of the ceph-volume inventory with exactly the fields the module
reads.  An `available` of `none` models a record without that key; the
optional string fields model missing keys (or a None value for path). -/
structure DiskJson where
  available : Option Bool
  path : Option String
  human_readable_size : Option String
  sys_vendor : Option String
  sys_size : Option String
  sys_model : Option String
deriving DecidableEq

/-- DriveGroup._reduce_inventory: a KeyError when "available" is missing;
None when the disk is not exactly available False; otherwise the reduced
dict with empty-string defaults for the sys_api fields. -/
def reduce_inventory (d : DiskJson) : Except Err (Option ReducedDisk) :=
  match d.available with
  | none => .error (.keyError "available")
  | some true => .ok none
  | some false =>
    .ok (some { path := d.path
                size := d.human_readable_size.getD ""
                vendor := d.sys_vendor.getD ""
                bare_size := d.sys_size.getD ""
                model := d.sys_model.getD "" })

/-- Truthiness test disk.get("path", None) in _filter_devices: the path of
the original (unreduced) disk record, `none` when missing or empty. -/
def pathOf (d : DiskJson) : Option String :=
  match d.path with
  | some p => if p = "" then none else some p
  | none => none

/-- One evaluation self.__match(self._reduce_inventory(disk), matcher). -/
def evalMatch (virtual : Bool) (m : Matcher) (d : DiskJson) : Except Err Bool :=
  match reduce_inventory d with
  | .error e => .error e
  | .ok r => matcher_compare virtual m r

/-- Insertion into the accumulating `devices` set (membership-respecting,
order by first insertion). -/
def insertPath (p : String) (s : List String) : List String :=
  if p ∈ s then s else s ++ [p]

/-- The inner loop of DriveGroup._filter_devices: scan the whole inventory
with one matcher, accumulating matched paths; a matched disk without a
truthy path raises. -/
def scanDisks (virtual : Bool) (m : Matcher) :
    List DiskJson → List String → Except Err (List String)
  | [], acc => .ok acc
  | d :: rest, acc =>
    match evalMatch virtual m d with
    | .error e => .error e
    | .ok false => scanDisks virtual m rest acc
    | .ok true =>
      match pathOf d with
      | some p => scanDisks virtual m rest (insertPath p acc)
      | none => .error .missingPath

/-- The outer loop of DriveGroup._filter_devices: each filter entry builds
its matcher and contributes its matches to the same accumulating set. -/
def runFilters (virtual : Bool) (inv : List DiskJson) :
    List (String × String) → List String → Except Err (List String)
  | [], acc => .ok acc
  | (n, v) :: rest, acc =>
    match assign_matchers n v with
    | .error e => .error e
    | .ok m =>
      match scanDisks virtual m inv acc with
      | .error e => .error e
      | .ok acc2 => runFilters virtual inv rest acc2

/-- DriveGroup._filter_devices. -/
def filter_devices (virtual : Bool) (device_filter : List (String × String))
    (inv : List DiskJson) : Except Err (List String) :=
  runFilters virtual inv device_filter []

/-- The selection pipeline for one role: DriveGroup.__init__ runs
_check_filter on the role's filter dict, and the role property then runs
_filter_devices on it. -/
def select_devices (virtual : Bool) (device_filter : List (String × String))
    (inv : List DiskJson) : Except Err (List String) :=
  match check_filter device_filter with
  | .error e => .error e
  | .ok () => filter_devices virtual device_filter inv

/-- One filter entry accepting a device: the entry's matcher exists and its
compare method on the reduced disk returns True. -/
def filterAccepts (virtual : Bool) (nv : String × String) (d : DiskJson) : Bool :=
  match assign_matchers nv.1 nv.2 with
  | .ok m =>
    match evalMatch virtual m d with
    | .ok true => true
    | _ => false
  | .error _ => false

/-- Test of the source regex r"\d+\.\d+" finding at least one match in the
string (the device size string must contain a decimal with a fractional
part). -/
def hasFrac (s : String) : Bool := (findFrac s.data).isSome

/-- Well-formedness of a stored (value, suffix) pair as produced by
_get_k_v: a non-empty digit string and a canonical unit. -/
def KVWF (t : String × String) : Prop :=
  t.1.data ≠ [] ∧ (∀ c ∈ t.1.data, isDigitC c = true) ∧
    (t.2 = "MB" ∨ t.2 = "GB" ∨ t.2 = "TB")

/-- Well-formedness of all populated fields of a SizeBounds. -/
def boundsWF (b : SizeBounds) : Prop :=
  (∀ t, b.low = some t → KVWF t) ∧ (∀ t, b.high = some t → KVWF t) ∧
    (∀ t, b.exact = some t → KVWF t)

/-- Byte multiplier of a unit as the specification words it:
MB maps to 10^6, GB to 10^9, TB to 10^12 (single-letter forms alike). -/
def specUnitMult (u : String) : ℚ :=
  if u = "M" ∨ u = "MB" then 1000000
  else if u = "G" ∨ u = "GB" then 1000000000
  else if u = "T" ∨ u = "TB" then 1000000000000
  else 0

/-- Byte value of a filter-side (value, unit) pair as the specification
words it: the integer value times the decimal unit multiplier. -/
def specFilterBytes (v u : String) : ℚ := (natDigits v.data : ℚ) * specUnitMult u

/-- Byte value of a device size string "<int>.<frac> <unit>" as the
specification words it. -/
def specDeviceBytes (a f : List Char) (u : String) : ℚ :=
  ((natDigits a : ℚ) + (natDigits f : ℚ) / 10 ^ f.length) * specUnitMult u

/-- First sample record of the inventory fixture of the repository's unit
tests (10.00 GB, vendor samsung, modelA). -/
def diskA : DiskJson :=
  { available := some false, path := some "/dev/vda",
    human_readable_size := some "10.00 GB", sys_vendor := some "samsung",
    sys_size := some "10474836480.0", sys_model := some "modelA" }

/-- Second sample record (20.00 GB, vendor intel, modelB). -/
def diskB : DiskJson :=
  { available := some false, path := some "/dev/vdb",
    human_readable_size := some "20.00 GB", sys_vendor := some "intel",
    sys_size := some "21474836480.0", sys_model := some "modelB" }

/-- Third sample record (30.00 GB, vendor micron, modelC). -/
def diskC : DiskJson :=
  { available := some false, path := some "/dev/vdc",
    human_readable_size := some "30.00 GB", sys_vendor := some "micron",
    sys_size := some "32474836480.0", sys_model := some "modelC" }

lemma mem_insertPath {q p : String} {s : List String} :
    q ∈ insertPath p s ↔ q = p ∨ q ∈ s := by
  unfold insertPath
  split
  · next h =>
    constructor
    · exact fun hq => Or.inr hq
    · rintro (rfl | hq)
      · exact h
      · exact hq
  · simp [List.mem_append, or_comm]

lemma scanDisks_ok_mem (virtual : Bool) (m : Matcher) (inv : List DiskJson) :
    ∀ (acc s : List String), scanDisks virtual m inv acc = .ok s → ∀ q : String,
      (q ∈ s ↔ q ∈ acc ∨
        ∃ d ∈ inv, evalMatch virtual m d = .ok true ∧ pathOf d = some q) := by
  induction inv with
  | nil =>
    intro acc s h q
    simp only [scanDisks, Except.ok.injEq] at h
    subst h; simp
  | cons d rest ih =>
    intro acc s h q
    simp only [scanDisks] at h
    cases he : evalMatch virtual m d <;> rw [he] at h
    · exact absurd h (by simp)
    · next b =>
      cases b
      · rw [ih acc s h q]
        simp only [List.mem_cons]
        constructor
        · rintro (hq | ⟨d', hd', hm', hp'⟩)
          · exact Or.inl hq
          · exact Or.inr ⟨d', Or.inr hd', hm', hp'⟩
        · rintro (hq | ⟨d', (rfl | hd'), hm', hp'⟩)
          · exact Or.inl hq
          · rw [he] at hm'; exact absurd hm' (by simp)
          · exact Or.inr ⟨d', hd', hm', hp'⟩
      · cases hp : pathOf d <;> rw [hp] at h
        · exact absurd h (by simp)
        · next p =>
          rw [ih _ s h q, mem_insertPath]
          simp only [List.mem_cons]
          constructor
          · rintro ((rfl | hq) | ⟨d', hd', hm', hp'⟩)
            · exact Or.inr ⟨d, Or.inl rfl, he, by rw [hp]⟩
            · exact Or.inl hq
            · exact Or.inr ⟨d', Or.inr hd', hm', hp'⟩
          · rintro (hq | ⟨d', (rfl | hd'), hm', hp'⟩)
            · exact Or.inl (Or.inr hq)
            · rw [hp] at hp'
              exact Or.inl (Or.inl (Option.some.inj hp').symm)
            · exact Or.inr ⟨d', hd', hm', hp'⟩

lemma scanDisks_ok_eval (virtual : Bool) (m : Matcher) (inv : List DiskJson) :
    ∀ (acc s : List String), scanDisks virtual m inv acc = .ok s →
      ∀ d ∈ inv, ∃ b, evalMatch virtual m d = .ok b := by
  induction inv with
  | nil => intro acc s _ d hd; cases hd
  | cons d0 rest ih =>
    intro acc s h d hd
    simp only [scanDisks] at h
    cases he : evalMatch virtual m d0 <;> rw [he] at h
    · exact absurd h (by simp)
    · next b =>
      rcases List.mem_cons.mp hd with rfl | hd'
      · exact ⟨b, he⟩
      · cases b
        · exact ih acc s h d hd'
        · cases hp : pathOf d0 <;> rw [hp] at h
          · exact absurd h (by simp)
          · exact ih _ s h d hd'

lemma scanDisks_ok_path (virtual : Bool) (m : Matcher) (inv : List DiskJson) :
    ∀ (acc s : List String), scanDisks virtual m inv acc = .ok s →
      ∀ d ∈ inv, evalMatch virtual m d = .ok true → ∃ p, pathOf d = some p := by
  induction inv with
  | nil => intro acc s _ d hd; cases hd
  | cons d0 rest ih =>
    intro acc s h d hd hm
    simp only [scanDisks] at h
    cases he : evalMatch virtual m d0 <;> rw [he] at h
    · exact absurd h (by simp)
    · next b =>
      rcases List.mem_cons.mp hd with rfl | hd'
      · rw [he] at hm
        cases b
        · exact absurd hm (by simp)
        · cases hp : pathOf d <;> rw [hp] at h
          · exact absurd h (by simp)
          · next p => exact ⟨p, rfl⟩
      · cases b
        · exact ih acc s h d hd' hm
        · cases hp : pathOf d0 <;> rw [hp] at h
          · exact absurd h (by simp)
          · exact ih _ s h d hd' hm

lemma filterAccepts_iff (virtual : Bool) (n v : String) (m : Matcher) (d : DiskJson)
    (ha : assign_matchers n v = .ok m) :
    filterAccepts virtual (n, v) d = true ↔ evalMatch virtual m d = .ok true := by
  unfold filterAccepts
  rw [ha]
  cases he : evalMatch virtual m d
  · simp [he]
  · next b => cases b <;> simp [he]

lemma runFilters_ok_mem (virtual : Bool) (inv : List DiskJson) :
    ∀ (spec : List (String × String)) (acc s : List String),
      runFilters virtual inv spec acc = .ok s → ∀ q : String,
      (q ∈ s ↔ q ∈ acc ∨
        ∃ nv ∈ spec, ∃ d ∈ inv, filterAccepts virtual nv d = true ∧ pathOf d = some q) := by
  intro spec
  induction spec with
  | nil =>
    intro acc s h q
    simp only [runFilters, Except.ok.injEq] at h
    subst h; simp
  | cons nv rest ih =>
    intro acc s h q
    obtain ⟨n, v⟩ := nv
    simp only [runFilters] at h
    split at h
    · exact absurd h (by simp)
    · next m ha =>
      split at h
      · exact absurd h (by simp)
      · next acc2 hs =>
        rw [ih acc2 s h q, scanDisks_ok_mem virtual m inv acc acc2 hs q]
        simp only [List.mem_cons]
        constructor
        · rintro ((hq | ⟨d, hd, hm, hp⟩) | ⟨nv', hnv', d, hd, hm, hp⟩)
          · exact Or.inl hq
          · exact Or.inr ⟨(n, v), Or.inl rfl, d, hd,
              (filterAccepts_iff virtual n v m d ha).mpr hm, hp⟩
          · exact Or.inr ⟨nv', Or.inr hnv', d, hd, hm, hp⟩
        · rintro (hq | ⟨nv', (rfl | hnv'), d, hd, hm, hp⟩)
          · exact Or.inl (Or.inl hq)
          · exact Or.inl (Or.inr ⟨d, hd,
              (filterAccepts_iff virtual n v m d ha).mp hm, hp⟩)
          · exact Or.inr ⟨nv', hnv', d, hd, hm, hp⟩

lemma runFilters_ok_path (virtual : Bool) (inv : List DiskJson) :
    ∀ (spec : List (String × String)) (acc s : List String),
      runFilters virtual inv spec acc = .ok s →
      ∀ d ∈ inv, ∀ nv ∈ spec, filterAccepts virtual nv d = true →
        ∃ p, pathOf d = some p := by
  intro spec
  induction spec with
  | nil => intro acc s _ d _ nv hnv; cases hnv
  | cons nv0 rest ih =>
    intro acc s h d hd nv hnv hacc
    obtain ⟨n, v⟩ := nv0
    simp only [runFilters] at h
    split at h
    · exact absurd h (by simp)
    · next m ha =>
      split at h
      · exact absurd h (by simp)
      · next acc2 hs =>
        rcases List.mem_cons.mp hnv with rfl | hnv'
        · exact scanDisks_ok_path virtual m inv acc acc2 hs d hd
            ((filterAccepts_iff virtual n v m d ha).mp hacc)
        · exact ih acc2 s h d hd nv hnv' hacc

lemma check_filter_ok_iff (spec : List (String × String)) :
    check_filter spec = .ok () ↔
      ∀ nv ∈ spec, supported_filters.contains nv.1 = true := by
  induction spec with
  | nil => simp [check_filter]
  | cons nv rest ih =>
    obtain ⟨n, v⟩ := nv
    simp only [check_filter]
    by_cases hc : supported_filters.contains n
    · rw [if_pos hc, ih]
      have hc' : n ∈ supported_filters := by simpa using hc
      simp [List.forall_mem_cons, hc']
    · rw [if_neg hc]
      simp only [List.forall_mem_cons]
      constructor
      · intro h; exact absurd h (by simp)
      · intro h; exact absurd h.1 (by simpa using hc)

lemma check_filter_first : ∀ (pre : List (String × String)) (n v : String)
    (rest : List (String × String)),
    (∀ nv ∈ pre, supported_filters.contains nv.1 = true) →
    supported_filters.contains n = false →
    check_filter (pre ++ (n, v) :: rest) = .error (.filterNotSupported n) := by
  intro pre
  induction pre with
  | nil =>
    intro n v rest _ hn
    simp only [List.nil_append, check_filter]
    rw [if_neg (by simpa using hn)]
  | cons nv0 pre' ih =>
    intro n v rest hpre hn
    obtain ⟨n0, v0⟩ := nv0
    have h0 := hpre (n0, v0) (by simp)
    simp only [List.cons_append, check_filter]
    rw [if_pos h0]
    exact ih n v rest (fun nv hnv => hpre nv (by simp [hnv])) hn

lemma check_filter_error_select (virtual : Bool) (spec : List (String × String))
    (inv : List DiskJson) (e : Err) (h : check_filter spec = .error e) :
    select_devices virtual spec inv = .error e := by
  unfold select_devices
  rw [h]

lemma matcher_compare_none (virtual : Bool) (m : Matcher) :
    matcher_compare virtual m none = .error .attributeError := by
  cases m <;> rfl

lemma evalMatch_ok_available (virtual : Bool) (m : Matcher) (d : DiskJson) (b : Bool)
    (h : evalMatch virtual m d = .ok b) : d.available = some false := by
  unfold evalMatch at h
  split at h
  · exact absurd h (by simp)
  · next r hr =>
    cases r
    · rw [matcher_compare_none] at h
      exact absurd h (by simp)
    · unfold reduce_inventory at hr
      cases hav : d.available <;> rw [hav] at hr
      · exact absurd hr (by simp)
      · next av =>
        cases av
        · rfl
        · exact absurd hr (by simp)

lemma digit_not_alpha {c : Char} (h : isDigitC c = true) : isAlphaC c = false := by
  simp only [isDigitC, Bool.and_eq_true, decide_eq_true_eq] at h
  simp only [isAlphaC, Bool.or_eq_false_iff, Bool.and_eq_false_iff,
    decide_eq_false_iff_not, not_le]
  omega

lemma takeDigits_append_eq : ∀ l : List Char, (takeDigits l).1 ++ (takeDigits l).2 = l := by
  intro l
  induction l with
  | nil => rfl
  | cons c cs ih =>
    by_cases hc : isDigitC c
    · simp [takeDigits, hc, ih]
    · simp [takeDigits, hc]

lemma takeDigits_all : ∀ l : List Char, ∀ c ∈ (takeDigits l).1, isDigitC c = true := by
  intro l
  induction l with
  | nil => intro c hc; cases hc
  | cons c0 cs ih =>
    intro c hc
    by_cases h0 : isDigitC c0
    · simp only [takeDigits, h0, if_true, List.mem_cons] at hc
      rcases hc with rfl | hc
      · exact h0
      · exact ih c hc
    · simp [takeDigits, h0] at hc

lemma takeDigits_cons_nondigit (c : Char) (cs : List Char) (h : isDigitC c = false) :
    takeDigits (c :: cs) = ([], c :: cs) := by
  simp [takeDigits, h]

lemma takeDigits_digit_run : ∀ (p t : List Char), (∀ c ∈ p, isDigitC c = true) →
    takeDigits (p ++ t) = (p ++ (takeDigits t).1, (takeDigits t).2) := by
  intro p t
  induction p with
  | nil => intro _; simp
  | cons c cs ih =>
    intro hp
    have hc : isDigitC c = true := hp c (by simp)
    simp [takeDigits, hc, ih (fun x hx => hp x (by simp [hx]))]

lemma takeDigits_all_digits (l : List Char) (h : ∀ c ∈ l, isDigitC c = true) :
    takeDigits l = (l, []) := by
  simpa [takeDigits] using takeDigits_digit_run l [] h

lemma firstDigitRun_wf : ∀ (l ds : List Char), firstDigitRun l = some ds →
    ds ≠ [] ∧ ∀ c ∈ ds, isDigitC c = true := by
  intro l
  induction l with
  | nil => intro ds h; cases h
  | cons c cs ih =>
    intro ds h
    by_cases hc : isDigitC c
    · simp only [firstDigitRun, hc, if_true, Option.some.injEq] at h
      subst h
      refine ⟨?_, takeDigits_all (c :: cs)⟩
      simp [takeDigits, hc]
    · simp only [firstDigitRun, hc, if_false] at h
      exact ih ds h

lemma takeLetters_cons_nonletter (c : Char) (cs : List Char) (h : isAlphaC c = false) :
    takeLetters (c :: cs) = ([], c :: cs) := by
  simp [takeLetters, h]

lemma firstLetterRun_skip : ∀ (p t : List Char), (∀ c ∈ p, isAlphaC c = false) →
    firstLetterRun (p ++ t) = firstLetterRun t := by
  intro p t
  induction p with
  | nil => intro _; rfl
  | cons c cs ih =>
    intro hp
    have hc : isAlphaC c = false := hp c (by simp)
    simp only [List.cons_append, firstLetterRun, hc, if_false]
    exact ih (fun x hx => hp x (by simp [hx]))

lemma findFrac_mono (c : Char) (rest : List Char)
    (h : (findFrac rest).isSome = true) : (findFrac (c :: rest)).isSome = true := by
  by_cases hc : isDigitC c
  · simp only [findFrac, hc, if_true]
    split
    · split
      · simp
      · exact h
    · exact h
  · simpa only [findFrac, hc, if_false] using h

lemma findFrac_found (a f post : List Char) (ha : a ≠ [])
    (haD : ∀ c ∈ a, isDigitC c = true) (hf : f ≠ [])
    (hfD : ∀ c ∈ f, isDigitC c = true)
    (hpost : takeDigits post = ([], post)) :
    findFrac (a ++ '.' :: (f ++ post)) = some (a, f) := by
  cases a with
  | nil => exact absurd rfl ha
  | cons a0 a' =>
    cases f with
    | nil => exact absurd rfl hf
    | cons f0 f' =>
      have h0 : isDigitC a0 = true := haD a0 (by simp)
      have htf : takeDigits ((f0 :: f') ++ post) = (f0 :: f', post) := by
        rw [takeDigits_digit_run _ post hfD, hpost]
        simp
      have htd : takeDigits (a0 :: (a' ++ '.' :: ((f0 :: f') ++ post)))
          = (a0 :: a', '.' :: ((f0 :: f') ++ post)) := by
        have h := takeDigits_digit_run (a0 :: a') ('.' :: ((f0 :: f') ++ post)) haD
        rw [takeDigits_cons_nondigit '.' _ (by decide)] at h
        simpa using h
      show findFrac (a0 :: (a' ++ '.' :: ((f0 :: f') ++ post))) = some (a0 :: a', f0 :: f')
      simp only [findFrac, h0, if_true, htd, htf]

lemma hasFrac_of_decomp : ∀ (pre a f post : List Char), a ≠ [] →
    (∀ c ∈ a, isDigitC c = true) → f ≠ [] → (∀ c ∈ f, isDigitC c = true) →
    (findFrac (pre ++ (a ++ '.' :: (f ++ post)))).isSome = true := by
  intro pre
  induction pre with
  | cons c pre' ih =>
    intro a f post ha haD hf hfD
    exact findFrac_mono c _ (ih a f post ha haD hf hfD)
  | nil =>
    intro a f post ha haD hf hfD
    cases a with
    | nil => exact absurd rfl ha
    | cons a0 a' =>
      cases f with
      | nil => exact absurd rfl hf
      | cons f0 f' =>
        have h0 : isDigitC a0 = true := haD a0 (by simp)
        have htf : takeDigits ((f0 :: f') ++ post)
            = (f0 :: (f' ++ (takeDigits post).1), (takeDigits post).2) := by
          simpa using takeDigits_digit_run (f0 :: f') post hfD
        have htd : takeDigits (a0 :: (a' ++ '.' :: ((f0 :: f') ++ post)))
            = (a0 :: a', '.' :: ((f0 :: f') ++ post)) := by
          have h := takeDigits_digit_run (a0 :: a') ('.' :: ((f0 :: f') ++ post)) haD
          rw [takeDigits_cons_nondigit '.' _ (by decide)] at h
          simpa using h
        show (findFrac (a0 :: (a' ++ '.' :: ((f0 :: f') ++ post)))).isSome = true
        simp only [findFrac, h0, if_true, htd, htf]
        rfl

lemma findFrac_some_decomp : ∀ (l a f : List Char), findFrac l = some (a, f) →
    ∃ pre post, l = pre ++ (a ++ '.' :: (f ++ post)) ∧ a ≠ [] ∧ f ≠ [] ∧
      (∀ c ∈ a, isDigitC c = true) ∧ (∀ c ∈ f, isDigitC c = true) := by
  intro l
  induction l with
  | nil => intro a f h; cases h
  | cons c rest ih =>
    intro a f h
    by_cases hc : isDigitC c
    · simp only [findFrac, hc, if_true] at h
      split at h
      · next ds r2 heq =>
        split at h
        · next f0 fs r4 heq2 =>
          injection h with h2
          injection h2 with hA hF
          subst hA
          subst hF
          have e1 : ds ++ '.' :: r2 = c :: rest := by
            have e := takeDigits_append_eq (c :: rest)
            rw [heq] at e
            exact e
          have e2 : (f0 :: fs) ++ r4 = r2 := by
            have e := takeDigits_append_eq r2
            rw [heq2] at e
            exact e
          have hd : takeDigits (c :: rest) = (c :: (takeDigits rest).1, (takeDigits rest).2) := by
            simp [takeDigits, hc]
          have hds : c :: (takeDigits rest).1 = ds := by
            rw [hd] at heq
            injection heq
          have hdsD : ∀ x ∈ ds, isDigitC x = true := by
            intro x hx
            have e : (takeDigits (c :: rest)).1 = ds := by rw [heq]
            rw [← e] at hx
            exact takeDigits_all (c :: rest) x hx
          have hfsD : ∀ x ∈ f0 :: fs, isDigitC x = true := by
            intro x hx
            have e : (takeDigits r2).1 = f0 :: fs := by rw [heq2]
            rw [← e] at hx
            exact takeDigits_all r2 x hx
          refine ⟨[], r4, ?_, ?_, by simp, hdsD, hfsD⟩
          · rw [List.nil_append, e2, e1]
          · rw [← hds]
            simp
        · next heq2 =>
          obtain ⟨pre, post, hl, h1, h2, h3, h4⟩ := ih a f h
          exact ⟨c :: pre, post, by rw [List.cons_append, hl], h1, h2, h3, h4⟩
      · next heq =>
        obtain ⟨pre, post, hl, h1, h2, h3, h4⟩ := ih a f h
        exact ⟨c :: pre, post, by rw [List.cons_append, hl], h1, h2, h3, h4⟩
    · simp only [findFrac, hc, if_false] at h
      obtain ⟨pre, post, hl, h1, h2, h3, h4⟩ := ih a f h
      exact ⟨c :: pre, post, by rw [List.cons_append, hl], h1, h2, h3, h4⟩

lemma hasFrac_iff (s : String) : hasFrac s = true ↔
    ∃ pre a f post, s.data = pre ++ (a ++ '.' :: (f ++ post)) ∧ a ≠ [] ∧ f ≠ [] ∧
      (∀ c ∈ a, isDigitC c = true) ∧ (∀ c ∈ f, isDigitC c = true) := by
  unfold hasFrac
  constructor
  · intro h
    obtain ⟨⟨a, f⟩, hv⟩ := Option.isSome_iff_exists.mp h
    obtain ⟨pre, post, hl, h1, h2, h3, h4⟩ := findFrac_some_decomp s.data a f hv
    exact ⟨pre, a, f, post, hl, h1, h2, h3, h4⟩
  · rintro ⟨pre, a, f, post, hl, h1, h2, h3, h4⟩
    rw [hl]
    exact hasFrac_of_decomp pre a f post h1 h3 h2 h4

lemma str_ne_empty {s : String} (h : s.data ≠ []) : s ≠ "" := by
  intro he
  rw [he] at h
  exact h rfl

lemma normalize_suffix_wf (x s : String) (h : normalize_suffix x = .ok s) :
    s = "MB" ∨ s = "GB" ∨ s = "TB" := by
  unfold normalize_suffix at h
  split at h
  · exact absurd h (by simp)
  · next hcont =>
    split at h
    · exact Or.inr (Or.inl (Except.ok.inj h).symm)
    · next hG =>
      split at h
      · exact Or.inr (Or.inr (Except.ok.inj h).symm)
      · next hT =>
        split at h
        · exact Or.inl (Except.ok.inj h).symm
        · next hM =>
          have hx : x = s := Except.ok.inj h
          subst hx
          have hmem : x ∈ supported_suffixes := by
            simp only [Bool.not_eq_true'] at hcont
            simpa using hcont
          simp only [supported_suffixes, List.mem_cons, List.not_mem_nil, or_false] at hmem
          rcases hmem with rfl | rfl | rfl | rfl | rfl | rfl
          · exact Or.inl rfl
          · exact Or.inr (Or.inl rfl)
          · exact Or.inr (Or.inr rfl)
          · exact absurd rfl hM
          · exact absurd rfl hG
          · exact absurd rfl hT

lemma get_k_v_wf (l : List Char) (t : String × String) (h : get_k_v l = .ok t) :
    KVWF t := by
  unfold get_k_v at h
  split at h
  · exact absurd h (by simp)
  · next ds hds =>
    split at h
    · exact absurd h (by simp)
    · next suf hsuf =>
      have ht : ((String.mk ds, suf) : String × String) = t := Except.ok.inj h
      subst ht
      obtain ⟨hne, hdig⟩ := firstDigitRun_wf l ds hds
      refine ⟨hne, hdig, ?_⟩
      unfold parse_suffix at hsuf
      split at hsuf
      · exact absurd hsuf (by simp)
      · exact normalize_suffix_wf _ _ hsuf

lemma boundsWF_empty : boundsWF ⟨none, none, none⟩ := by
  refine ⟨?_, ?_, ?_⟩ <;> intro t ht <;> exact absurd ht (by simp)

lemma parse_step_low_high_wf (s : List Char) (b b' : SizeBounds)
    (h : parse_step_low_high s b = .ok b') (hb : boundsWF b) : boundsWF b' := by
  unfold parse_step_low_high at h
  split at h
  · exact (Except.ok.inj h) ▸ hb
  · split at h
    · exact absurd h (by simp)
    · next l hl =>
      split at h
      · exact absurd h (by simp)
      · next hkv hh =>
        have hb' := Except.ok.inj h
        subst hb'
        refine ⟨?_, ?_, ?_⟩
        · intro t ht
          simp only [Option.some.injEq] at ht
          exact ht ▸ get_k_v_wf _ l hl
        · intro t ht
          simp only [Option.some.injEq] at ht
          exact ht ▸ get_k_v_wf _ hkv hh
        · intro t ht
          exact hb.2.2 t ht

lemma parse_step_low_wf (s : List Char) (b b' : SizeBounds)
    (h : parse_step_low s b = .ok b') (hb : boundsWF b) : boundsWF b' := by
  unfold parse_step_low at h
  split at h
  · exact (Except.ok.inj h) ▸ hb
  · split at h
    · exact absurd h (by simp)
    · next l hl =>
      have hb' := Except.ok.inj h
      subst hb'
      refine ⟨?_, ?_, ?_⟩
      · intro t ht
        simp only [Option.some.injEq] at ht
        exact ht ▸ get_k_v_wf _ l hl
      · intro t ht
        exact hb.2.1 t ht
      · intro t ht
        exact hb.2.2 t ht

lemma parse_step_high_wf (s : List Char) (b b' : SizeBounds)
    (h : parse_step_high s b = .ok b') (hb : boundsWF b) : boundsWF b' := by
  unfold parse_step_high at h
  split at h
  · exact (Except.ok.inj h) ▸ hb
  · split at h
    · exact absurd h (by simp)
    · next l hl =>
      have hb' := Except.ok.inj h
      subst hb'
      refine ⟨?_, ?_, ?_⟩
      · intro t ht
        exact hb.1 t ht
      · intro t ht
        simp only [Option.some.injEq] at ht
        exact ht ▸ get_k_v_wf _ l hl
      · intro t ht
        exact hb.2.2 t ht

lemma parse_step_exact_wf (s : List Char) (b b' : SizeBounds)
    (h : parse_step_exact s b = .ok b') (hb : boundsWF b) : boundsWF b' := by
  unfold parse_step_exact at h
  split at h
  · exact (Except.ok.inj h) ▸ hb
  · split at h
    · exact absurd h (by simp)
    · next l hl =>
      have hb' := Except.ok.inj h
      subst hb'
      refine ⟨?_, ?_, ?_⟩
      · intro t ht
        exact hb.1 t ht
      · intro t ht
        exact hb.2.1 t ht
      · intro t ht
        simp only [Option.some.injEq] at ht
        exact ht ▸ get_k_v_wf _ l hl

lemma parse_filter_wf (attr : String) (b : SizeBounds)
    (h : parse_filter attr = .ok b) : boundsWF b := by
  unfold parse_filter at h
  split at h
  · exact absurd h (by simp)
  · next b1 h1 =>
    split at h
    · exact absurd h (by simp)
    · next b2 h2 =>
      split at h
      · exact absurd h (by simp)
      · next b3 h3 =>
        split at h
        · exact absurd h (by simp)
        · next b4 h4 =>
          simp only [pyNotTuple, Bool.false_and, Bool.and_false] at h
          rw [if_neg (by simp)] at h
          have hb := Except.ok.inj h
          subst hb
          exact parse_step_exact_wf _ _ _ h4
            (parse_step_high_wf _ _ _ h3
              (parse_step_low_wf _ _ _ h2
                (parse_step_low_high_wf _ _ _ h1 boundsWF_empty)))

lemma to_byte_tuple_wf (v u : String) (hwf : KVWF (v, u)) :
    to_byte_tuple (some (v, u)) = .ok (some (specFilterBytes v u)) := by
  obtain ⟨hne, hdig, hu⟩ := hwf
  have hfl : pyFloat v = some (natDigits v.data : ℚ) := by
    unfold pyFloat
    rw [takeDigits_all_digits v.data hdig]
    cases hv : v.data with
    | nil => exact absurd hv hne
    | cons c cs => rfl
  simp only [to_byte_tuple, hfl]
  rcases hu with rfl | rfl | rfl <;>
    simp [to_byte, specFilterBytes, specUnitMult]

lemma size_branches_bounded (x : Option (String × String)) (lv lu hv hu2 : String)
    (wfl : KVWF (lv, lu)) (wfh : KVWF (hv, hu2)) (dq : ℚ) :
    size_branches ⟨some (lv, lu), some (hv, hu2), x⟩ (some dq) =
      .ok (decide (specFilterBytes lv lu ≤ dq) && decide (dq ≤ specFilterBytes hv hu2)) := by
  have hlv : lv ≠ "" := str_ne_empty wfl.1
  have hhv : hv ≠ "" := str_ne_empty wfh.1
  have hlu : lu ≠ "" := by rcases wfl.2.2 with rfl | rfl | rfl <;> decide
  have hhu : hu2 ≠ "" := by rcases wfh.2.2 with rfl | rfl | rfl <;> decide
  by_cases hle : dq ≤ specFilterBytes hv hu2 <;>
    simp [size_branches, tupAll, hlv, hhv, hlu, hhu,
      to_byte_tuple_wf lv lu wfl, to_byte_tuple_wf hv hu2 wfh, py_le, py_ge, hle]

lemma size_branches_low_only (x : Option (String × String)) (lv lu : String)
    (wfl : KVWF (lv, lu)) (dq : ℚ) :
    size_branches ⟨some (lv, lu), none, x⟩ (some dq) =
      .ok (decide (specFilterBytes lv lu ≤ dq)) := by
  have hlv : lv ≠ "" := str_ne_empty wfl.1
  have hlu : lu ≠ "" := by rcases wfl.2.2 with rfl | rfl | rfl <;> decide
  simp [size_branches, tupAll, hlv, hlu, to_byte_tuple_wf lv lu wfl, py_ge]

lemma size_branches_high_only (x : Option (String × String)) (hv hu2 : String)
    (wfh : KVWF (hv, hu2)) (dq : ℚ) :
    size_branches ⟨none, some (hv, hu2), x⟩ (some dq) =
      .ok (decide (dq ≤ specFilterBytes hv hu2)) := by
  have hhv : hv ≠ "" := str_ne_empty wfh.1
  have hhu : hu2 ≠ "" := by rcases wfh.2.2 with rfl | rfl | rfl <;> decide
  simp [size_branches, tupAll, hhv, hhu, to_byte_tuple_wf hv hu2 wfh, py_le]

lemma size_branches_exact (ev eu : String) (wfe : KVWF (ev, eu)) (dq : ℚ) :
    size_branches ⟨none, none, some (ev, eu)⟩ (some dq) =
      .ok (decide (dq = specFilterBytes ev eu)) := by
  have hev : ev ≠ "" := str_ne_empty wfe.1
  have heu : eu ≠ "" := by rcases wfe.2.2 with rfl | rfl | rfl <;> decide
  simp [size_branches, tupAll, hev, heu, to_byte_tuple_wf ev eu wfe, py_eq]

lemma size_compare_device (bnd : SizeBounds) (a f : List Char) (u : String)
    (ha : a ≠ []) (haD : ∀ c ∈ a, isDigitC c = true)
    (hf : f ≠ []) (hfD : ∀ c ∈ f, isDigitC c = true)
    (hu : u ∈ supported_suffixes) :
    size_compare bnd (some (String.mk (a ++ '.' :: (f ++ ' ' :: u.data))))
      = size_branches bnd (some (specDeviceBytes a f u)) := by
  have hu6 : u = "MB" ∨ u = "GB" ∨ u = "TB" ∨ u = "M" ∨ u = "G" ∨ u = "T" := by
    simpa [supported_suffixes] using hu
  have hfr : findFrac (String.mk (a ++ '.' :: (f ++ ' ' :: u.data))).data = some (a, f) :=
    findFrac_found a f (' ' :: u.data) ha haD hf hfD
      (takeDigits_cons_nondigit ' ' _ (by decide))
  have hskip : firstLetterRun (a ++ '.' :: (f ++ ' ' :: u.data)) = firstLetterRun u.data := by
    have heq : a ++ '.' :: (f ++ ' ' :: u.data) = (a ++ '.' :: (f ++ [' '])) ++ u.data := by
      simp
    rw [heq]
    apply firstLetterRun_skip
    intro c hc
    simp only [List.mem_append, List.mem_cons, List.not_mem_nil, or_false] at hc
    rcases hc with hc | rfl | hc | rfl
    · exact digit_not_alpha (haD c hc)
    · decide
    · exact digit_not_alpha (hfD c hc)
    · decide
  have hps : parse_suffix (String.mk (a ++ '.' :: (f ++ ' ' :: u.data))).data
      = normalize_suffix u := by
    show parse_suffix (a ++ '.' :: (f ++ ' ' :: u.data)) = normalize_suffix u
    unfold parse_suffix
    rw [hskip]
    rcases hu6 with rfl | rfl | rfl | rfl | rfl | rfl <;> rfl
  simp only [size_compare, hfr, hps]
  rcases hu6 with rfl | rfl | rfl | rfl | rfl | rfl <;>
    simp [normalize_suffix, supported_suffixes, to_byte, specDeviceBytes, specUnitMult]

lemma matcher_size_device (virtual : Bool) (attr : String) (bnd : SizeBounds)
    (r : ReducedDisk) (a f : List Char) (u : String)
    (hsize : r.size = String.mk (a ++ '.' :: (f ++ ' ' :: u.data)))
    (ha : a ≠ []) (haD : ∀ c ∈ a, isDigitC c = true)
    (hf : f ≠ []) (hfD : ∀ c ∈ f, isDigitC c = true)
    (hu : u ∈ supported_suffixes) :
    matcher_compare virtual (.size attr bnd) (some r)
      = size_branches bnd (some (specDeviceBytes a f u)) := by
  have hne : r.size ≠ "" := by
    rw [hsize]
    intro hcon
    have hdata := congrArg String.data hcon
    cases a with
    | nil => exact absurd rfl ha
    | cons a0 a' => simp at hdata
  have hdk : get_disk_key virtual "human_readable_size" (some "size") (some r)
      = .ok (some r.size) := by
    unfold get_disk_key
    simp [reduced_get, truthy, hne]
  unfold matcher_compare
  rw [hdk]
  show size_compare bnd (some r.size) = _
  rw [hsize]
  exact size_compare_device bnd a f u ha haD hf hfD hu

/-- C1: for every role filter map with at least two filter entries and every
inventory, when selection returns a result set, a device path is in it iff
at least one configured filter entry's matcher accepts some inventory device
carrying that path — the filters combine by union, not intersection. -/
theorem c1_selection_union (virtual : Bool) (spec : List (String × String))
    (inv : List DiskJson) (s : List String) (q : String)
    (hlen : 2 ≤ spec.length)
    (hsel : select_devices virtual spec inv = .ok s) :
    q ∈ s ↔ ∃ nv ∈ spec, ∃ d ∈ inv,
      filterAccepts virtual nv d = true ∧ pathOf d = some q := by
  unfold select_devices at hsel
  split at hsel
  · exact absurd hsel (by simp)
  · unfold filter_devices at hsel
    have h := runFilters_ok_mem virtual inv spec [] s hsel q
    simpa using h

/-- Witness for C1 on the sample inventory: with a model filter and a vendor
filter, the path of the model-matched disk is selected. -/
theorem c1_selection_union_witness :
    ("/dev/vda" ∈ (["/dev/vda", "/dev/vdb"] : List String)) ↔
      ∃ nv ∈ [("model", "modelA"), ("vendor", "intel")], ∃ d ∈ [diskA, diskB],
        filterAccepts false nv d = true ∧ pathOf d = some "/dev/vda" :=
  c1_selection_union false [("model", "modelA"), ("vendor", "intel")]
    [diskA, diskB] ["/dev/vda", "/dev/vdb"] "/dev/vda" (by decide) rfl

/-- C2: contrary to the claim, the reserved key limit is not removed before
filter-name validation: _check_filter raises FilterNotSupported("limit"),
the whole selection for such a role fails, and no truncation is ever
reached (_assign_matchers would also reject the key). -/
theorem c2_limit_key_rejected :
    check_filter [("size", "10G:29G"), ("model", "foo"), ("vendor", "1x"), ("limit", "0")]
      = .error (.filterNotSupported "limit") ∧
    select_devices false
      [("size", "10G:29G"), ("model", "foo"), ("vendor", "1x"), ("limit", "0")]
      [diskA, diskB, diskC] = .error (.filterNotSupported "limit") ∧
    assign_matchers "limit" "1" = .error (.noMatcherFound "limit" "1") :=
  ⟨rfl, rfl, rfl⟩

/-- C3 counterexample: the claim's supported set names rotational and all,
but the validator rejects both. -/
theorem c3_counterexample :
    check_filter [("rotational", "1")] = .error (.filterNotSupported "rotational") ∧
    check_filter [("all", "True")] = .error (.filterNotSupported "all") :=
  ⟨rfl, rfl⟩

/-- C3 amended: the Filter-Support Validator accepts a filter map iff every
key is in the set named by _supported_filters, i.e. size, vendor, model and
rotates; the first unsupported key raises FilterNotSupported naming it; and
a validation error preempts the whole selection, so no matcher runs. -/
theorem c3_supported_filters (spec : List (String × String)) :
    (check_filter spec = .ok () ↔
      ∀ nv ∈ spec, supported_filters.contains nv.1 = true) ∧
    (∀ (pre : List (String × String)) (n v : String)
        (rest : List (String × String)),
      spec = pre ++ (n, v) :: rest →
      (∀ nv ∈ pre, supported_filters.contains nv.1 = true) →
      supported_filters.contains n = false →
      check_filter spec = .error (.filterNotSupported n)) ∧
    (∀ (virtual : Bool) (inv : List DiskJson) (e : Err),
      check_filter spec = .error e → select_devices virtual spec inv = .error e) :=
  ⟨check_filter_ok_iff spec,
   fun pre n v rest hs hpre hn => by rw [hs]; exact check_filter_first pre n v rest hpre hn,
   fun virtual inv e h => check_filter_error_select virtual spec inv e h⟩

/-- Witness for C3 on a concrete map whose second key is unsupported. -/
theorem c3_supported_filters_witness :
    check_filter [("model", "foo"), ("bogus", "x")]
      = .error (.filterNotSupported "bogus") ∧
    select_devices false [("model", "foo"), ("bogus", "x")] []
      = .error (.filterNotSupported "bogus") := by
  have h1 := (c3_supported_filters [("model", "foo"), ("bogus", "x")]).2.1
    [("model", "foo")] "bogus" "x" [] rfl (by decide) (by decide)
  exact ⟨h1, (c3_supported_filters [("model", "foo"), ("bogus", "x")]).2.2 false [] _ h1⟩

/-- C4: contrary to the claim (and to the repository's own test, which
expects an empty-string sentinel), on a virtual environment the extractor
returns None; str(None) is "None", so a Substring matcher whose attr is a
substring of "None" matches the absent attribute, while the Equality and
Size matchers raise TypeError instead of returning non-match. -/
theorem c4_none_sentinel_behavior :
    get_disk_key true "model" none
      (some { path := some "/dev/vdb", size := "", vendor := "", bare_size := "", model := "" })
      = .ok none ∧
    matcher_compare true (.substring "one" "model")
      (some { path := some "/dev/vdb", size := "", vendor := "", bare_size := "", model := "" })
      = .ok true ∧
    matcher_compare true (.equality "1" "rotates")
      (some { path := some "/dev/vdb", size := "", vendor := "", bare_size := "", model := "" })
      = .error .typeError ∧
    matcher_compare true (.size "10G" ⟨none, none, some ("10", "GB")⟩)
      (some { path := some "/dev/vdb", size := "", vendor := "", bare_size := "", model := "" })
      = .error .typeError :=
  ⟨rfl, rfl, rfl, rfl⟩

/-- C5: contrary to the claim, two-letter unit forms match none of the four
shape regexes (single [A-Z] letter), and a string matching no shape does not
raise SizeExpressionError at parse time — the emptiness check tests the
truthiness of 2-tuples and is dead code — instead the resulting matcher
raises "No filters applied" at its first comparison.  Single-letter shapes
do parse, and a shape with an unsupported unit letter raises
UnitNotSupported. -/
theorem c5_parse_behavior :
    parse_filter "20GB" = .ok ⟨none, none, none⟩ ∧
    parse_filter "10GB:50GB" = .ok ⟨none, none, none⟩ ∧
    parse_filter "None" = .ok ⟨none, none, none⟩ ∧
    parse_filter "20G" = .ok ⟨none, none, some ("20", "GB")⟩ ∧
    parse_filter "10G:50G" = .ok ⟨some ("10", "GB"), some ("50", "GB"), none⟩ ∧
    parse_filter "10P:" = .error (.unitNotSupported "P") ∧
    size_compare ⟨none, none, none⟩ (some "20.00 GB") = .error .noFiltersApplied :=
  ⟨rfl, rfl, rfl, rfl, rfl, rfl, rfl⟩

/-- C7 counterexample: an inventory record with no path at all is silently
passed over when no filter's matcher accepts it — the selection returns an
empty set instead of failing fatally. -/
theorem c7_counterexample :
    select_devices false [("model", "foo")]
      [{ available := some false, path := none, human_readable_size := none,
         sys_vendor := none, sys_size := none, sys_model := some "bar" }] = .ok [] :=
  rfl

/-- C7 amended: a record lacking a non-empty path aborts the selection only
when some filter's matcher accepts it; equivalently, whenever selection
returns a result, every accepted inventory record resolved a non-empty
path.  Unmatched pathless records are silently skipped. -/
theorem c7_matched_requires_path (virtual : Bool) (spec : List (String × String))
    (inv : List DiskJson) (s : List String)
    (hsel : select_devices virtual spec inv = .ok s) :
    ∀ d ∈ inv, ∀ nv ∈ spec, filterAccepts virtual nv d = true →
      ∃ p, pathOf d = some p := by
  unfold select_devices at hsel
  split at hsel
  · exact absurd hsel (by simp)
  · unfold filter_devices at hsel
    exact runFilters_ok_path virtual inv spec [] s hsel

/-- Witness for C7 on the sample inventory. -/
theorem c7_matched_requires_path_witness : ∃ p, pathOf diskA = some p :=
  c7_matched_requires_path false [("model", "modelA")] [diskA] ["/dev/vda"]
    rfl diskA (by decide) ("model", "modelA") (by decide) (by decide)

/-- C9 counterexample: with an empty filter map, selection succeeds on an
inventory whose device has available = True, so success does not imply that
every device has available exactly False. -/
theorem c9_counterexample :
    select_devices false []
      [{ available := some true, path := some "/dev/vda", human_readable_size := none,
         sys_vendor := none, sys_size := none, sys_model := none }] = .ok [] :=
  rfl

/-- C9 amended: as soon as at least one filter entry is configured, a
successful selection forces every inventory device to have available
exactly False — _reduce_inventory returns None otherwise and every matcher
raises on a None disk. -/
theorem c9_selection_requires_available_false (virtual : Bool)
    (spec : List (String × String)) (inv : List DiskJson) (s : List String)
    (hne : spec ≠ []) (hsel : select_devices virtual spec inv = .ok s) :
    ∀ d ∈ inv, d.available = some false := by
  unfold select_devices at hsel
  split at hsel
  · exact absurd hsel (by simp)
  · unfold filter_devices at hsel
    cases spec with
    | nil => exact absurd rfl hne
    | cons nv rest =>
      obtain ⟨n, v⟩ := nv
      intro d hd
      simp only [runFilters] at hsel
      split at hsel
      · exact absurd hsel (by simp)
      · next m ha =>
        split at hsel
        · exact absurd hsel (by simp)
        · next acc2 hs =>
          obtain ⟨b, hb⟩ := scanDisks_ok_eval virtual m inv [] acc2 hs d hd
          exact evalMatch_ok_available virtual m d b hb

/-- Witness for C9 on the sample inventory. -/
theorem c9_selection_requires_available_false_witness :
    diskA.available = some false :=
  c9_selection_requires_available_false false [("model", "modelA")] [diskA]
    ["/dev/vda"] (by simp) rfl diskA (by decide)

/-- C6: for every successfully parsed size filter, on a device whose size
string is "<digits>.<digits> <unit>" with a supported unit, the SizeMatcher
matches: a bounded range iff low le device le high bytes (both endpoints
included), a low-only range iff device ge low, a high-only range iff device
le high, and an exact filter iff the byte values are equal — bytes computed
with MB, GB, TB as 10^6, 10^9, 10^12 on both sides. -/
theorem c6_size_range_semantics (virtual : Bool) (attr : String) (bounds : SizeBounds)
    (hparse : parse_filter attr = .ok bounds)
    (r : ReducedDisk) (a f : List Char) (u : String)
    (hsize : r.size = String.mk (a ++ '.' :: (f ++ ' ' :: u.data)))
    (ha : a ≠ []) (haD : ∀ c ∈ a, isDigitC c = true)
    (hf : f ≠ []) (hfD : ∀ c ∈ f, isDigitC c = true)
    (hu : u ∈ supported_suffixes) :
    (∀ lv lu hv hu2, bounds.low = some (lv, lu) → bounds.high = some (hv, hu2) →
      (matcher_compare virtual (.size attr bounds) (some r) = .ok true ↔
        specFilterBytes lv lu ≤ specDeviceBytes a f u ∧
          specDeviceBytes a f u ≤ specFilterBytes hv hu2)) ∧
    (∀ lv lu, bounds.low = some (lv, lu) → bounds.high = none →
      (matcher_compare virtual (.size attr bounds) (some r) = .ok true ↔
        specFilterBytes lv lu ≤ specDeviceBytes a f u)) ∧
    (∀ hv hu2, bounds.low = none → bounds.high = some (hv, hu2) →
      (matcher_compare virtual (.size attr bounds) (some r) = .ok true ↔
        specDeviceBytes a f u ≤ specFilterBytes hv hu2)) ∧
    (∀ ev eu, bounds.low = none → bounds.high = none → bounds.exact = some (ev, eu) →
      (matcher_compare virtual (.size attr bounds) (some r) = .ok true ↔
        specDeviceBytes a f u = specFilterBytes ev eu)) := by
  have hwf := parse_filter_wf attr bounds hparse
  have hmc := matcher_size_device virtual attr bounds r a f u hsize ha haD hf hfD hu
  obtain ⟨bl, bh, bx⟩ := bounds
  refine ⟨?_, ?_, ?_, ?_⟩
  · intro lv lu hv hu2 hlow hhigh
    have wfl := hwf.1 (lv, lu) hlow
    have wfh := hwf.2.1 (hv, hu2) hhigh
    simp only at hlow hhigh
    subst hlow
    subst hhigh
    rw [hmc, size_branches_bounded bx lv lu hv hu2 wfl wfh (specDeviceBytes a f u)]
    simp
  · intro lv lu hlow hhigh
    have wfl := hwf.1 (lv, lu) hlow
    simp only at hlow hhigh
    subst hlow
    subst hhigh
    rw [hmc, size_branches_low_only bx lv lu wfl (specDeviceBytes a f u)]
    simp
  · intro hv hu2 hlow hhigh
    have wfh := hwf.2.1 (hv, hu2) hhigh
    simp only at hlow hhigh
    subst hlow
    subst hhigh
    rw [hmc, size_branches_high_only bx hv hu2 wfh (specDeviceBytes a f u)]
    simp
  · intro ev eu hlow hhigh hexact
    have wfe := hwf.2.2 (ev, eu) hexact
    simp only at hlow hhigh hexact
    subst hlow
    subst hhigh
    subst hexact
    rw [hmc, size_branches_exact ev eu wfe (specDeviceBytes a f u)]
    simp

/-- Witness for C6 on the bounded filter 10G:50G against a 20.00 GB disk. -/
theorem c6_size_range_semantics_witness :
    matcher_compare false (.size "10G:50G" ⟨some ("10", "GB"), some ("50", "GB"), none⟩)
      (some { path := some "/dev/vdb", size := "20.00 GB", vendor := "",
              bare_size := "", model := "" })
      = .ok true ↔
      specFilterBytes "10" "GB" ≤ specDeviceBytes ['2', '0'] ['0', '0'] "GB" ∧
        specDeviceBytes ['2', '0'] ['0', '0'] "GB" ≤ specFilterBytes "50" "GB" :=
  (c6_size_range_semantics false "10G:50G" ⟨some ("10", "GB"), some ("50", "GB"), none⟩
    rfl { path := some "/dev/vdb", size := "20.00 GB", vendor := "",
          bare_size := "", model := "" }
    ['2', '0'] ['0', '0'] "GB" rfl (by decide) (by decide) (by decide) (by decide)
    (by decide)).1 "10" "GB" "50" "GB" rfl rfl

/-- C8: when both the primary and the fallback key yield no truthy value and
the environment is not virtualization-tolerant, _get_disk_key raises the
missing-attribute error naming both keys, and for the size filter's keys
human_readable_size and size the error propagates unchanged out of the whole
selection call. -/
theorem c8_missing_attribute :
    (∀ (r : ReducedDisk) (key fb : String),
      truthy (reduced_get r key) = false → truthy (reduced_get r fb) = false →
      get_disk_key false key (some fb) (some r) = .error (.missingAttr key (some fb))) ∧
    (∀ d : DiskJson, d.available = some false →
      d.human_readable_size = none ∨ d.human_readable_size = some "" →
      select_devices false [("size", "10G:")] [d]
        = .error (.missingAttr "human_readable_size" (some "size"))) := by
  constructor
  · intro r key fb h1 h2
    simp [get_disk_key, h1, h2]
  · intro d ha hs
    obtain ⟨av, p, hrs, vnd, bsz, mdl⟩ := d
    simp only at ha hs
    subst ha
    rcases hs with rfl | rfl <;> rfl

/-- Witness for C8 on a concrete disk with no size information. -/
theorem c8_missing_attribute_witness :
    get_disk_key false "human_readable_size" (some "size")
      (some { path := some "/dev/vda", size := "", vendor := "",
              bare_size := "", model := "" })
      = .error (.missingAttr "human_readable_size" (some "size")) ∧
    select_devices false [("size", "10G:")]
      [{ available := some false, path := some "/dev/vda", human_readable_size := none,
         sys_vendor := none, sys_size := none, sys_model := none }]
      = .error (.missingAttr "human_readable_size" (some "size")) :=
  ⟨c8_missing_attribute.1 _ "human_readable_size" "size" rfl rfl,
   c8_missing_attribute.2 _ rfl (Or.inl rfl)⟩

/-- C10: SizeMatcher.compare requires the device's extracted size value to
contain a <digits>.<digits> substring; when it does not (hasFrac is false,
equivalently no such decomposition exists by hasFrac_iff), the comparison
raises IndexError instead of returning a verdict. -/
theorem c10_fractional_required (virtual : Bool) (attr : String) (b : SizeBounds)
    (r : ReducedDisk) (hne : r.size ≠ "") (hfr : hasFrac r.size = false) :
    matcher_compare virtual (.size attr b) (some r) = .error .indexError := by
  have hdk : get_disk_key virtual "human_readable_size" (some "size") (some r)
      = .ok (some r.size) := by
    unfold get_disk_key
    simp [reduced_get, truthy, hne]
  have hnone : findFrac r.size.data = none := by
    cases h2 : findFrac r.size.data with
    | none => rfl
    | some v => exact absurd hfr (by simp [hasFrac, h2])
  unfold matcher_compare
  rw [hdk]
  show size_compare b (some r.size) = .error .indexError
  simp only [size_compare, hnone]

/-- Witness for C10 on the size string "10 GB", which has no fractional
part. -/
theorem c10_fractional_required_witness :
    matcher_compare false (.size "10G" ⟨none, none, some ("10", "GB")⟩)
      (some { path := some "/dev/vda", size := "10 GB", vendor := "",
              bare_size := "", model := "" })
      = .error .indexError :=
  c10_fractional_required false "10G" ⟨none, none, some ("10", "GB")⟩
    { path := some "/dev/vda", size := "10 GB", vendor := "",
      bare_size := "", model := "" } (by decide) (by decide)

end Disks
